import Mathlib

/-!
Verification of the mailpen template resolution and caching engine
(manager.go, funcs.go, theme lookup), as a shallow embedding.

Modelling conventions:
- A Go fs.FS is an association list from file path to file content
  (`GoFS`); fs.WalkDir over a root directory is the sublist of files whose
  path lies under that directory, in list order; a missing directory is
  simply the empty sublist, matching the fs.ErrNotExist skip in
  loadDirectory (manager.go).
- A html/template set is an association list from template name to the
  source text registered under that name (`TemplateSet`); registering a
  definition (base.New(name).Parse(content)) conses a new binding, which
  shadows any older binding of the same name under lookup, modelling Go
  map-assignment (last write wins).
- Parsing a template either succeeds or fails; which source texts parse is
  abstracted as a parameter `parseOk : String → Bool`, and template
  execution / HTML post-processing are likewise parameters, since claims
  quantify over template contents and data.
- The mutex in Manager is elided: all operations are modelled as
  sequential state transformers, and the double-checked cache lookup of
  getEmailTemplate collapses to a single lookup.
-/

namespace Mailpen

/-- Go strings.HasPrefix, computed on the character lists. -/
def strIsPrefixOf (pre s : String) : Bool :=
  pre.toList.isPrefixOf s.toList

/-- Go strings.HasSuffix, computed on the character lists. -/
def strIsSuffixOf (suf s : String) : Bool :=
  suf.toList.isSuffixOf s.toList

/-- Go strings.TrimPrefix(s, pre). -/
def trimPrefix (s pre : String) : String :=
  if strIsPrefixOf pre s then String.mk (s.toList.drop pre.toList.length) else s

/-- Go strings.TrimSuffix(s, suf). -/
def trimSuffix (s suf : String) : String :=
  if strIsSuffixOf suf s then String.mk (s.toList.take (s.toList.length - suf.toList.length))
  else s

/-- Go path.Ext: the suffix starting at the final dot in the final
slash-separated element of the path, empty if there is none. -/
def pathExt (p : String) : String :=
  let revSeg := p.toList.reverse.takeWhile (fun c => c != '/')
  if revSeg.contains '.' then String.mk ((revSeg.takeWhile (fun c => c != '.')) ++ ['.']).reverse
  else ""

/-- Go strings.Split with a single-character separator: accumulator-based
worker over the character list. -/
def splitChar (sep : Char) : List Char → List Char → List String
  | [], acc => [String.mk acc.reverse]
  | c :: rest, acc =>
    if c == sep then String.mk acc.reverse :: splitChar sep rest []
    else splitChar sep rest (c :: acc)

/-- Go strings.Split(s, sep) for a one-character separator sep. -/
def splitString (s : String) (sep : Char) : List String :=
  splitChar sep s.toList []

/-- First binding of a key in an association list (Go map indexing /
os file lookup; keys are unique in the states the program builds, and new
cache/template bindings are consed in front, so first binding = current
value). -/
def assocFind {β : Type} : List (String × β) → String → Option β
  | [], _ => none
  | (k, v) :: rest, key => if k = key then some v else assocFind rest key

/-- Abstract read-only file system: association list path ↦ content,
listed in the order fs.WalkDir would visit the files. -/
abbrev GoFS := List (String × String)

/-- Go fs.ReadFile: some content on success, none when the file is absent. -/
def readFile (fsys : GoFS) (path : String) : Option String :=
  assocFind fsys path

/-- The files visited by fs.WalkDir(fsys, rootDir): every file whose path
lies strictly under rootDir.  A missing directory gives the empty list,
matching the fs.ErrNotExist skip in loadDirectory. -/
def filesUnder (fsys : GoFS) (rootDir : String) : List (String × String) :=
  fsys.filter (fun pc => strIsPrefixOf (rootDir ++ "/") pc.1)

/-- manager.go: directory-role constants. -/
def LayoutsDir : String := "layouts"

def ComponentsDir : String := "components"

def PartialsDir : String := "partials"

def EmailsDir : String := "emails"

/-- manager.go TemplateFormat: the two concrete formats FormatText and
FormatHTML (the empty-string format returned by formatFromFile for other
extensions is modelled by Option below). -/
inductive TemplateFormat where
  | text
  | html
deriving DecidableEq

/-- The underlying string value of a TemplateFormat ("text" / "html"). -/
def TemplateFormat.str : TemplateFormat → String
  | .text => "text"
  | .html => "html"

/-- manager.go TemplateFormat.Extension. -/
def TemplateFormat.Extension : TemplateFormat → String
  | .html => ".html"
  | .text => ".txt"

/-- manager.go formatFromFile: ".html" ↦ HTML, ".txt" ↦ text, anything
else ↦ none (the empty format, skipped by the loaders). -/
def formatFromFile (filename : String) : Option TemplateFormat :=
  if pathExt filename = ".html" then some .html
  else if pathExt filename = ".txt" then some .text
  else none

/-- manager.go templateName: strip the root-directory prefix, a leading
slash and the extension, then prefix by the role tag selected by the
switch on rootDir. -/
def templateName (rootDir filePath : String) : String :=
  let n1 := trimPrefix filePath rootDir
  let n2 := trimPrefix n1 "/"
  let n3 := trimSuffix n2 (pathExt n2)
  if rootDir = LayoutsDir then "layout:" ++ n3
  else if rootDir = ComponentsDir then "component:" ++ n3
  else if rootDir = PartialsDir then "partial:" ++ n3
  else n3

/-- A named template collection (html/template.Template namespace):
bindings from template name to registered source text, newer bindings in
front. -/
abbrev TemplateSet := List (String × String)

/-- manager.go Manager.baseTemplates: one template set per format. -/
structure BaseTemplates where
  text : TemplateSet
  html : TemplateSet
deriving DecidableEq

/-- The base set for a format (m.baseTemplates[format]). -/
def BaseTemplates.get (b : BaseTemplates) : TemplateFormat → TemplateSet
  | .text => b.text
  | .html => b.html

/-- Register a definition into the base set of one format
(base.New(name).Parse(content)). -/
def BaseTemplates.insert (b : BaseTemplates) (fmt : TemplateFormat) (nm content : String) :
    BaseTemplates :=
  match fmt with
  | .text => { b with text := (nm, content) :: b.text }
  | .html => { b with html := (nm, content) :: b.html }

/-- The fresh pair of base sets created at the top of loadBaseTemplates
(template.New("text-base") / template.New("html-base")). -/
def emptyBaseTemplates : BaseTemplates := ⟨[], []⟩

/-- manager.go TemplateSource: a named abstract file collection. -/
structure TemplateSource where
  name : String
  fs : GoFS
deriving DecidableEq

/-- The walk callback of loadDirectory, folded over the files under one
root directory: skip files of unknown format, otherwise parse the content
into the base set of the file's format under its canonical name; a parse
failure aborts the walk, keeping everything registered so far. -/
def loadFiles (parseOk : String → Bool) (rootDir : String) :
    BaseTemplates → List (String × String) → BaseTemplates × Option String
  | base, [] => (base, none)
  | base, (p, content) :: rest =>
    match formatFromFile p with
    | none => loadFiles parseOk rootDir base rest
    | some fmt =>
      if parseOk content then
        loadFiles parseOk rootDir (base.insert fmt (templateName rootDir p) content) rest
      else
        (base, some ("failed to parse " ++ p))

/-- manager.go loadDirectory. -/
def loadDirectory (parseOk : String → Bool) (base : BaseTemplates) (source : TemplateSource)
    (rootDir : String) : BaseTemplates × Option String :=
  loadFiles parseOk rootDir base (filesUnder source.fs rootDir)

/-- The per-source body of loadBaseTemplates: layouts, then components,
then the partial-fragment directory, each error wrapped with the source
name. -/
def loadSource (parseOk : String → Bool) (base : BaseTemplates) (source : TemplateSource) :
    BaseTemplates × Option String :=
  match loadDirectory parseOk base source LayoutsDir with
  | (b, some e) => (b, some ("failed to load layouts from " ++ source.name ++ ": " ++ e))
  | (b1, none) =>
    match loadDirectory parseOk b1 source ComponentsDir with
    | (b, some e) => (b, some ("failed to load components from " ++ source.name ++ ": " ++ e))
    | (b2, none) =>
      match loadDirectory parseOk b2 source PartialsDir with
      | (b, some e) =>
        (b, some ("failed to load partials from " ++ source.name ++ ": " ++ e))
      | (b3, none) => (b3, none)

/-- The source loop of loadBaseTemplates, threading the (in-place mutated)
base sets; the first error aborts the loop, keeping the partial state. -/
def loadSources (parseOk : String → Bool) :
    BaseTemplates → List TemplateSource → BaseTemplates × Option String
  | base, [] => (base, none)
  | base, s :: rest =>
    match loadSource parseOk base s with
    | (b, some e) => (b, some e)
    | (b, none) => loadSources parseOk b rest

/-- manager.go loadBaseTemplates: reset both base sets, then load every
source in registration order. -/
def loadBaseTemplates (parseOk : String → Bool) (sources : List TemplateSource) :
    BaseTemplates × Option String :=
  loadSources parseOk emptyBaseTemplates sources

/-- manager.go Manager (funcMap, processor and mutex elided; parsing and
execution are parameters of the operations instead). -/
structure Manager where
  defaultLayout : String
  sources : List TemplateSource
  baseTemplates : BaseTemplates
  emailCache : List (String × TemplateSet)
deriving DecidableEq

/-- manager.go Manager.AddSource: append the source, clear the cache,
rebuild the base sets in place; the rebuild error, if any, is returned but
the appended source and the partially rebuilt base stay installed. -/
def AddSource (parseOk : String → Bool) (m : Manager) (source : TemplateSource) :
    Manager × Option String :=
  let newSources := m.sources ++ [source]
  let rebuilt := loadBaseTemplates parseOk newSources
  ({ m with sources := newSources, emailCache := [], baseTemplates := rebuilt.1 }, rebuilt.2)

/-- The loop of NewManager over config.Sources. -/
def addSourceList (parseOk : String → Bool) : Manager → List TemplateSource → Except String Manager
  | m, [] => .ok m
  | m, s :: rest =>
    match AddSource parseOk m s with
    | (_, some e) => .error ("failed to add source \"" ++ s.name ++ "\": " ++ e)
    | (m2, none) => addSourceList parseOk m2 rest

/-- manager.go NewManager: default the layout name to "base", start from
empty state, add the built-in templates source first, then the
caller-supplied sources in order.  The embedded templates.FS is passed in
as builtinFS (its concrete contents are a build artifact of the templates
package). -/
def NewManager (parseOk : String → Bool) (builtinFS : GoFS) (cfgSources : List TemplateSource)
    (cfgDefaultLayout : String) : Except String Manager :=
  let dl := if cfgDefaultLayout = "" then "base" else cfgDefaultLayout
  let m0 : Manager :=
    { defaultLayout := dl, sources := [], baseTemplates := emptyBaseTemplates, emailCache := [] }
  match AddSource parseOk m0 { name := "built-in", fs := builtinFS } with
  | (_, some e) => .error ("failed to add built-in templates: " ++ e)
  | (m1, none) => addSourceList parseOk m1 cfgSources

/-- A manager as freshly initialised, before any source is added. -/
def freshManager : Manager :=
  { defaultLayout := "base", sources := [], baseTemplates := emptyBaseTemplates, emailCache := [] }

/-- manager.go getEmailTemplate cache key: fmt.Sprintf("%s:%s:%s",
format, name, layout). -/
def cacheKey (format : TemplateFormat) (name layout : String) : String :=
  format.str ++ ":" ++ name ++ ":" ++ layout

/-- The document-search loop of getEmailTemplate, on an already reversed
source list: the first source whose file system contains the file wins. -/
def findFirstContent : List TemplateSource → String → Option String
  | [], _ => none
  | s :: rest, filename =>
    match readFile s.fs filename with
    | some content => some content
    | none => findFirstContent rest filename

/-- path.Join(EmailsDir, name+format.Extension()) for clean names. -/
def emailFilename (name : String) (format : TemplateFormat) : String :=
  EmailsDir ++ "/" ++ name ++ format.Extension

/-- manager.go getEmailTemplate: cache lookup; on miss clone the base set
of the format, search the sources from most recently added to earliest for
the document file, parse the first match into the clone under the bare
document name, store the combined template in the cache and return it. -/
def getEmailTemplate (parseOk : String → Bool) (m : Manager) (name layout : String)
    (format : TemplateFormat) : Manager × Except String TemplateSet :=
  let key := cacheKey format name layout
  match assocFind m.emailCache key with
  | some tmpl => (m, .ok tmpl)
  | none =>
    let base := m.baseTemplates.get format
    let filename := emailFilename name format
    match findFirstContent m.sources.reverse filename with
    | none => (m, .error ("template " ++ filename ++ " not found"))
    | some content =>
      if parseOk content then
        let tmpl : TemplateSet := (name, content) :: base
        ({ m with emailCache := (key, tmpl) :: m.emailCache }, .ok tmpl)
      else
        (m, .error ("failed to parse " ++ filename))

/-- manager.go RenderedEmail. -/
structure RenderedEmail where
  Subject : String := ""
  Text : String := ""
  HTML : String := ""
deriving DecidableEq

/-- The tail of RenderEmail: fail with the single not-found error when
both rendered bodies came out empty, succeed otherwise. -/
def finishRender (m : Manager) (name text html : String) :
    Manager × Except String RenderedEmail :=
  if text = "" ∧ html = "" then
    (m, .error ("no templates found for email \"" ++ name ++ "\""))
  else
    (m, .ok { Subject := "", Text := text, HTML := html })

/-- The HTML half of RenderEmail: resolve the HTML document; when it
resolves, execute the "layout" entry point and post-process the output
(failures of either are fatal); when it does not resolve, leave the HTML
body empty. -/
def renderHtmlPart {D : Type} (parseOk : String → Bool)
    (exec : TemplateSet → String → D → Except String String)
    (proc : String → Except String String)
    (m : Manager) (name layout : String) (data : D) (text : String) :
    Manager × Except String RenderedEmail :=
  let r := getEmailTemplate parseOk m name layout .html
  match r.2 with
  | .ok tmpl =>
    match exec tmpl "layout" data with
    | .error e => (r.1, .error ("failed to render HTML template: " ++ e))
    | .ok h =>
      match proc h with
      | .error e => (r.1, .error ("failed to process HTML: " ++ e))
      | .ok h2 => finishRender r.1 name text h2
  | .error _ => finishRender r.1 name text ""

/-- manager.go RenderEmail: default the layout, try the text format, then
the HTML format, then check that at least one body is non-empty.
Template execution (ExecuteTemplate with entry point "layout") and the
HTML processor are parameters exec and proc. -/
def RenderEmail {D : Type} (parseOk : String → Bool)
    (exec : TemplateSet → String → D → Except String String)
    (proc : String → Except String String)
    (m : Manager) (name : String) (data : D) (layout : String) :
    Manager × Except String RenderedEmail :=
  let eff := if layout = "" then m.defaultLayout else layout
  let r := getEmailTemplate parseOk m name eff .text
  match r.2 with
  | .ok tmpl =>
    match exec tmpl "layout" data with
    | .error e => (r.1, .error ("failed to render text template: " ++ e))
    | .ok text => renderHtmlPart parseOk exec proc r.1 name eff data text
  | .error _ => renderHtmlPart parseOk exec proc r.1 name eff data ""

/-- A value of the theme tree: either a scalar leaf or a nested mapping
(the map[string]any of components_test.go, restricted to the two shapes
GetThemeValue distinguishes). -/
inductive ThemeValue where
  | leaf : String → ThemeValue
  | node : List (String × ThemeValue) → ThemeValue

/-- A theme tree level: mapping from key to value. -/
abbrev Theme := List (String × ThemeValue)

/-- The indexed loop of GetThemeValue: at the last segment return the
binding as is (none when absent, Go nil); at an intermediate segment
descend only when the binding exists and is a nested mapping, otherwise
return the nil sentinel. -/
def themeWalkGo : Theme → List String → Option ThemeValue
  | _, [] => none
  | t, k :: rest =>
    match rest with
    | [] => assocFind t k
    | _ :: _ =>
      match assocFind t k with
      | some (.node t2) => themeWalkGo t2 rest
      | _ => none

/-- components_test.go GetThemeValue: empty path gives the nil sentinel;
otherwise split the path on '.' and walk the tree. -/
def GetThemeValue (theme : Theme) (path : String) : Option ThemeValue :=
  if path = "" then none
  else themeWalkGo theme (splitString path '.')

/-- funcs.go mod (template helper "num_mod"): 0 when the divisor is 0,
otherwise the Go `%` (truncated remainder). -/
def mod (a b : Int) : Int :=
  if b = 0 then 0 else Int.tmod a b

/-! Specification-side functions, following the spec's words, for the
statements that compare the loader against "the last declaration wins"
and the resolver against "most recently added source first". -/

/-- The canonical-identifier declarations a directory walk contributes for
one format: (identifier, content) for every file of that format under the
root, in walk order. -/
def fileItems (rootDir : String) : List (String × String) → TemplateFormat → List (String × String)
  | [], _ => []
  | (p, content) :: rest, fmt =>
    match formatFromFile p with
    | some f =>
      if f = fmt then (templateName rootDir p, content) :: fileItems rootDir rest fmt
      else fileItems rootDir rest fmt
    | none => fileItems rootDir rest fmt

/-- Every template file in the list parses successfully. -/
def filesOk (parseOk : String → Bool) (files : List (String × String)) : Bool :=
  files.all (fun pc =>
    match formatFromFile pc.1 with
    | some _ => parseOk pc.2
    | none => true)

/-- All declarations one source contributes to a format's base set, in
load order (layouts, then components, then the fragment directory). -/
def sourceItems (source : TemplateSource) (fmt : TemplateFormat) : List (String × String) :=
  fileItems LayoutsDir (filesUnder source.fs LayoutsDir) fmt
    ++ fileItems ComponentsDir (filesUnder source.fs ComponentsDir) fmt
    ++ fileItems PartialsDir (filesUnder source.fs PartialsDir) fmt

/-- Every template file of the source parses successfully. -/
def sourceOk (parseOk : String → Bool) (source : TemplateSource) : Bool :=
  filesOk parseOk (filesUnder source.fs LayoutsDir)
    && filesOk parseOk (filesUnder source.fs ComponentsDir)
    && filesOk parseOk (filesUnder source.fs PartialsDir)

/-- All declarations of all sources for a format, in registration order. -/
def baseDecls : List TemplateSource → TemplateFormat → List (String × String)
  | [], _ => []
  | s :: rest, fmt => sourceItems s fmt ++ baseDecls rest fmt

/-- Spec-side: the content of the LAST declaration of an identifier in a
declaration list (later declarations take priority). -/
def lastDef : List (String × String) → String → Option String
  | [], _ => none
  | (k, v) :: rest, nm =>
    match lastDef rest nm with
    | some c => some c
    | none => if k = nm then some v else none

/-- Spec-side: the content of a file as seen from the MOST RECENTLY added
source containing it (later sources take priority). -/
def lastContent : List TemplateSource → String → Option String
  | [], _ => none
  | s :: rest, filename =>
    match lastContent rest filename with
    | some c => some c
    | none => readFile s.fs filename

/-! Concrete fixtures for witnesses and counterexamples. -/

/-- Parse oracle under which every template source text parses. -/
def parseAll : String → Bool := fun _ => true

/-- Parse oracle under which exactly the text "BAD" fails to parse. -/
def parseNotBad : String → Bool := fun c => !(c == "BAD")

/-- Source A declaring component identifier component:x. -/
def srcCompA : TemplateSource := { name := "A", fs := [("components/x.html", "FROM_A")] }

/-- Source B re-declaring component identifier component:x. -/
def srcCompB : TemplateSource := { name := "B", fs := [("components/x.html", "FROM_B")] }

/-- First source containing emails/welcome.html. -/
def srcDocBase : TemplateSource := { name := "base", fs := [("emails/welcome.html", "HELLO_BASE")] }

/-- Second source overriding emails/welcome.html. -/
def srcDocOver : TemplateSource :=
  { name := "override", fs := [("emails/welcome.html", "HI_OVERRIDE")] }

/-- A manager whose registry holds srcDocBase then srcDocOver (base sets
are empty since neither source has layout/component directories). -/
def mgrDocs : Manager :=
  { defaultLayout := "base", sources := [srcDocBase, srcDocOver],
    baseTemplates := emptyBaseTemplates, emailCache := [] }

/-- A good source contributing a layout. -/
def srcLayoutA : TemplateSource := { name := "A", fs := [("layouts/base.html", "A_LAYOUT")] }

/-- A source whose component parses but whose fragment file is the
unparsable text "BAD". -/
def srcBadB : TemplateSource :=
  { name := "B", fs := [("components/x.html", "B_COMP"), ("partials/p.html", "BAD")] }

/-- The manager state after NewManager with an empty built-in file system
and source srcLayoutA. -/
def mgrC4 : Manager :=
  ((NewManager parseNotBad [] [srcLayoutA] "").toOption).getD freshManager

/-- A source whose only document exists in the text format alone. -/
def srcTextOnly : TemplateSource := { name := "only", fs := [("emails/only.txt", "ONLY_TPL")] }

/-- The manager state after NewManager with an empty built-in file system
and source srcTextOnly. -/
def mgrTextOnly : Manager :=
  ((NewManager parseAll [] [srcTextOnly] "").toOption).getD freshManager

/-- An executor modelling a template whose "layout" entry point produces
the empty string (e.g. a document that only defines empty blocks). -/
def execEmpty : TemplateSet → String → Unit → Except String String := fun _ _ _ => .ok ""

/-- An executor modelling a template whose "layout" entry point renders
the fixed non-empty text TEXT_BODY. -/
def execConst : TemplateSet → String → Unit → Except String String := fun _ _ _ => .ok "TEXT_BODY"

/-- The pass-through HTML processor (DefaultProcessor.Process). -/
def procId : String → Except String String := fun s => .ok s

/-- The theme tree a:(b:"v") from the spec's theme-resolution example. -/
def exTheme : Theme := [("a", .node [("b", .leaf "v")])]

/-- A source with no files at all (every role directory missing). -/
def srcEmpty : TemplateSource := { name := "empty", fs := [] }

/-- The manager NewManager builds from an empty built-in file system and
no configured sources. -/
def mgrC9 : Manager :=
  { defaultLayout := "base", sources := [{ name := "built-in", fs := [] }],
    baseTemplates := emptyBaseTemplates, emailCache := [] }

/-! Helper lemmas. -/

/-- Negating the dividend negates the truncated remainder. -/
theorem tmod_neg_dividend (a b : Int) : (-a).tmod b = -(a.tmod b) := by
  rw [Int.tmod_def, Int.tmod_def, Int.neg_tdiv]; ring

/-- The truncated remainder is smaller than the divisor in absolute
value, for every non-zero divisor. -/
theorem natAbs_tmod_lt (a b : Int) (hb : b ≠ 0) : (a.tmod b).natAbs < b.natAbs := by
  have key : ∀ x y : Int, 0 < y → (x.tmod y).natAbs < y.natAbs := by
    intro x y hy
    rcases le_or_lt 0 x with hx | hx
    · have h1 := Int.tmod_lt_of_pos x hy
      have h2 := Int.tmod_nonneg y hx
      omega
    · have h1 := Int.tmod_lt_of_pos (-x) hy
      have h2 := Int.tmod_nonneg y (by omega : (0:Int) ≤ -x)
      have h3 : (-x).tmod y = -(x.tmod y) := tmod_neg_dividend x y
      omega
  rcases lt_or_gt_of_ne hb with hneg | hpos
  · have h4 : a.tmod (-b) = a.tmod b := Int.tmod_neg a b
    have h5 := key a (-b) (by omega)
    rw [h4] at h5
    omega
  · exact key a b hpos

/-- Association lookup over an append: the left list is consulted first. -/
theorem assocFind_append {β : Type} (l₁ l₂ : List (String × β)) (key : String) :
    assocFind (l₁ ++ l₂) key =
      match assocFind l₁ key with
      | some v => some v
      | none => assocFind l₂ key := by
  induction l₁ with
  | nil => simp [assocFind]
  | cons kv rest ih =>
    obtain ⟨k, v⟩ := kv
    by_cases hk : k = key <;> simp [assocFind, hk, ih]

/-- Lookup in a reversed declaration list returns the LAST declaration of
the name. -/
theorem assocFind_reverse_lastDef (l : List (String × String)) (nm : String) :
    assocFind l.reverse nm = lastDef l nm := by
  induction l with
  | nil => rfl
  | cons kv rest ih =>
    obtain ⟨k, v⟩ := kv
    rw [List.reverse_cons, assocFind_append, ih]
    rcases h2 : lastDef rest nm with _ | c <;> by_cases hk : k = nm <;>
      simp [lastDef, assocFind, hk, h2]

/-- The document-search loop over an append: the left part is consulted
first. -/
theorem findFirstContent_append (l₁ l₂ : List TemplateSource) (f : String) :
    findFirstContent (l₁ ++ l₂) f =
      match findFirstContent l₁ f with
      | some c => some c
      | none => findFirstContent l₂ f := by
  induction l₁ with
  | nil => simp [findFirstContent]
  | cons s rest ih =>
    rcases hr : readFile s.fs f with _ | c <;> simp [findFirstContent, hr, ih]

/-- Searching the reversed registration list front to back is searching
the registration list for the most recently added match. -/
theorem findFirstContent_reverse (sources : List TemplateSource) (f : String) :
    findFirstContent sources.reverse f = lastContent sources f := by
  induction sources with
  | nil => rfl
  | cons s rest ih =>
    rw [List.reverse_cons, findFirstContent_append, ih]
    rcases h2 : lastContent rest f with _ | c <;>
      rcases hr : readFile s.fs f with _ | c' <;> simp [lastContent, findFirstContent, hr, h2]

/-- A file present in no listed source is not found. -/
theorem lastContent_none (post : List TemplateSource) (f : String)
    (h : ∀ t ∈ post, readFile t.fs f = none) : lastContent post f = none := by
  induction post with
  | nil => rfl
  | cons s rest ih =>
    have hs : readFile s.fs f = none := h s (by simp)
    have hrest : lastContent rest f = none := ih (fun t ht => h t (by simp [ht]))
    simp [lastContent, hrest, hs]

/-- A successful walk over one directory registers exactly that
directory's declarations, per format, most recent in front. -/
theorem loadFiles_ok (parseOk : String → Bool) (rootDir : String)
    (files : List (String × String)) :
    ∀ base : BaseTemplates, filesOk parseOk files = true →
      loadFiles parseOk rootDir base files =
        (⟨(fileItems rootDir files .text).reverse ++ base.text,
          (fileItems rootDir files .html).reverse ++ base.html⟩, none) := by
  induction files with
  | nil => intro base _; rfl
  | cons pc rest ih =>
    intro base h
    obtain ⟨p, content⟩ := pc
    rw [filesOk, List.all_cons, Bool.and_eq_true] at h
    rcases hfmt : formatFromFile p with _ | fmt
    · have := ih base (by rw [filesOk]; exact h.2)
      simp [loadFiles, fileItems, hfmt, this]
    · have hp : parseOk content = true := by
        have := h.1
        rw [hfmt] at this
        exact this
      cases fmt
      · have hrec := ih (base.insert .text (templateName rootDir p) content)
          (by rw [filesOk]; exact h.2)
        simp only [BaseTemplates.insert] at hrec
        simp [loadFiles, fileItems, hfmt, hp, hrec, BaseTemplates.insert, List.append_assoc]
      · have hrec := ih (base.insert .html (templateName rootDir p) content)
          (by rw [filesOk]; exact h.2)
        simp only [BaseTemplates.insert] at hrec
        simp [loadFiles, fileItems, hfmt, hp, hrec, BaseTemplates.insert, List.append_assoc]

/-- A successful load of one source registers exactly its declarations on
top of the previous base. -/
theorem loadSource_ok (parseOk : String → Bool) (source : TemplateSource)
    (base : BaseTemplates) (h : sourceOk parseOk source = true) :
    loadSource parseOk base source =
      (⟨(sourceItems source .text).reverse ++ base.text,
        (sourceItems source .html).reverse ++ base.html⟩, none) := by
  rw [sourceOk, Bool.and_eq_true, Bool.and_eq_true] at h
  obtain ⟨⟨hL, hC⟩, hP⟩ := h
  simp [loadSource, loadDirectory, loadFiles_ok, hL, hC, hP, sourceItems,
    List.reverse_append, List.append_assoc]

/-- A successful loop over the sources registers all declarations in
registration order on top of the previous base. -/
theorem loadSources_ok (parseOk : String → Bool) (sources : List TemplateSource) :
    ∀ base : BaseTemplates, (∀ s ∈ sources, sourceOk parseOk s = true) →
      loadSources parseOk base sources =
        (⟨(baseDecls sources .text).reverse ++ base.text,
          (baseDecls sources .html).reverse ++ base.html⟩, none) := by
  induction sources with
  | nil => intro base _; rfl
  | cons s rest ih =>
    intro base h
    have hs : sourceOk parseOk s = true := h s (by simp)
    have hrest := ih ⟨(sourceItems s .text).reverse ++ base.text,
      (sourceItems s .html).reverse ++ base.html⟩ (fun t ht => h t (by simp [ht]))
    simp [loadSources, loadSource_ok parseOk s base hs, hrest, baseDecls,
      List.reverse_append, List.append_assoc]

/-! Claim theorems. -/

/-- Claim C1: override precedence in the base template set.  When every
template file of every source parses, rebuilding the base set reports no
error — re-declaring an identifier is not an error — and the definition
registered under each canonical identifier in each format is the LAST
declaration of that identifier across the sources in registration order,
so the last source declaring an identifier wins. -/
theorem basePrecedenceLastWins (parseOk : String → Bool) (sources : List TemplateSource)
    (h : ∀ s ∈ sources, sourceOk parseOk s = true) :
    (loadBaseTemplates parseOk sources).2 = none ∧
    ∀ (fmt : TemplateFormat) (nm : String),
      assocFind ((loadBaseTemplates parseOk sources).1.get fmt) nm =
        lastDef (baseDecls sources fmt) nm := by
  have hmain := loadSources_ok parseOk sources emptyBaseTemplates h
  rw [loadBaseTemplates, hmain]
  refine ⟨rfl, ?_⟩
  intro fmt nm
  cases fmt <;> simp [BaseTemplates.get, emptyBaseTemplates, assocFind_reverse_lastDef]

/-- Witness for C1: two sources both declaring component:x, the second
one's definition is registered and no error is reported. -/
theorem basePrecedenceLastWins_witness :
    (loadBaseTemplates parseAll [srcCompA, srcCompB]).2 = none ∧
    assocFind ((loadBaseTemplates parseAll [srcCompA, srcCompB]).1.get .html) "component:x" =
      some "FROM_B" := by
  have h := basePrecedenceLastWins parseAll [srcCompA, srcCompB] (by decide)
  exact ⟨h.1, (h.2 .html "component:x").trans (by decide)⟩

/-- Claim C3: cache correctness.  Resolving the same (format, document
name, layout) triple twice consecutively returns the same state and the
same resolved template (hence identical rendered output on identical
data); adding a source leaves the cache completely empty, so every
subsequent resolve misses and re-reads the sources. -/
theorem cacheCorrectness :
    (∀ (parseOk : String → Bool) (m : Manager) (name layout : String) (fmt : TemplateFormat),
      getEmailTemplate parseOk (getEmailTemplate parseOk m name layout fmt).1 name layout fmt =
        getEmailTemplate parseOk m name layout fmt) ∧
    (∀ (parseOk : String → Bool) (m : Manager) (s : TemplateSource),
      (AddSource parseOk m s).1.emailCache = []) ∧
    (∀ (parseOk : String → Bool) (m : Manager) (s : TemplateSource) (key : String),
      assocFind (AddSource parseOk m s).1.emailCache key = none) := by
  refine ⟨?_, fun _ _ _ => rfl, fun _ _ _ _ => rfl⟩
  intro parseOk m name layout fmt
  rcases hcache : assocFind m.emailCache (cacheKey fmt name layout) with _ | t
  · rcases hfind : findFirstContent m.sources.reverse (emailFilename name fmt) with _ | c
    · have h1 : getEmailTemplate parseOk m name layout fmt =
          (m, .error ("template " ++ emailFilename name fmt ++ " not found")) := by
        simp [getEmailTemplate, hcache, hfind]
      rw [h1]
      exact h1
    · rcases hp : parseOk c with _ | _
      · have h1 : getEmailTemplate parseOk m name layout fmt =
            (m, .error ("failed to parse " ++ emailFilename name fmt)) := by
          simp [getEmailTemplate, hcache, hfind, hp]
        rw [h1]
        exact h1
      · have h1 : getEmailTemplate parseOk m name layout fmt =
            ({ m with emailCache :=
                (cacheKey fmt name layout, (name, c) :: m.baseTemplates.get fmt) ::
                  m.emailCache },
              .ok ((name, c) :: m.baseTemplates.get fmt)) := by
          simp [getEmailTemplate, hcache, hfind, hp]
        rw [h1]
        simp [getEmailTemplate, assocFind]
  · have h1 : getEmailTemplate parseOk m name layout fmt = (m, .ok t) := by
      simp [getEmailTemplate, hcache]
    rw [h1]
    exact h1

/-- Claim C4 (evidence of the code's behaviour): adding a source whose
page-fragment file fails to parse makes AddSource return an error, yet
the failed source remains in the registry and the partially rebuilt base
set — already containing the failed source's component — replaces the
previous base, which did not contain it. -/
theorem addSourceNotAtomic :
    (AddSource parseNotBad mgrC4 srcBadB).2.isSome = true ∧
    (AddSource parseNotBad mgrC4 srcBadB).1.sources =
      [{ name := "built-in", fs := [] }, srcLayoutA, srcBadB] ∧
    assocFind ((AddSource parseNotBad mgrC4 srcBadB).1.baseTemplates.get .html) "component:x" =
      some "B_COMP" ∧
    assocFind (mgrC4.baseTemplates.get .html) "component:x" = none := by
  exact ⟨by decide, by decide, by decide, by decide⟩

/-- Claim C6: theme lookup splits the dotted path and walks the nested
mapping, returning the nil sentinel (never an error value) for the empty
path, for an absent intermediate segment and for an intermediate segment
bound to a scalar; at the final segment it returns the binding; and on
the tree a:(b:"v") the paths "a.b", "a.c", "x.y" give "v", nil, nil. -/
theorem themeLookupSentinel :
    (∀ theme : Theme, GetThemeValue theme "" = none) ∧
    (∀ (theme : Theme) (path : String), path ≠ "" →
      GetThemeValue theme path = themeWalkGo theme (splitString path '.')) ∧
    (∀ (t : Theme) (k : String), themeWalkGo t [k] = assocFind t k) ∧
    (∀ (t : Theme) (k : String) (ks : List String), ks ≠ [] → assocFind t k = none →
      themeWalkGo t (k :: ks) = none) ∧
    (∀ (t : Theme) (k s : String) (ks : List String), ks ≠ [] →
      assocFind t k = some (.leaf s) → themeWalkGo t (k :: ks) = none) ∧
    (∀ (t t2 : Theme) (k : String) (ks : List String), ks ≠ [] →
      assocFind t k = some (.node t2) → themeWalkGo t (k :: ks) = themeWalkGo t2 ks) ∧
    GetThemeValue exTheme "a.b" = some (.leaf "v") ∧
    GetThemeValue exTheme "a.c" = none ∧
    GetThemeValue exTheme "x.y" = none := by
  refine ⟨?_, ?_, ?_, ?_, ?_, ?_, rfl, rfl, rfl⟩
  · intro theme; rfl
  · intro theme path hp; simp [GetThemeValue, hp]
  · intro t k; rfl
  · intro t k ks hks hnone
    cases ks with
    | nil => exact absurd rfl hks
    | cons a as => simp [themeWalkGo, hnone]
  · intro t k s ks hks hleaf
    cases ks with
    | nil => exact absurd rfl hks
    | cons a as => simp [themeWalkGo, hleaf]
  · intro t t2 k ks hks hnode
    cases ks with
    | nil => exact absurd rfl hks
    | cons a as => simp [themeWalkGo, hnode]

/-- Witness for C6: an absent first segment on a two-segment path gives
the sentinel. -/
theorem themeLookupSentinel_witness : themeWalkGo exTheme ["zz", "y"] = none :=
  themeLookupSentinel.2.2.2.1 exTheme "zz" ["y"] (by decide) rfl

/-- Claim C7: missing-role tolerance.  A role directory with no files
loads as a no-op without error; a source with all three base role
directories missing leaves the base sets untouched and reports no error;
and a source not containing a document file neither disturbs nor aborts
the document search, wherever it sits in the registry. -/
theorem missingRoleTolerance :
    (∀ (parseOk : String → Bool) (base : BaseTemplates) (source : TemplateSource)
        (rootDir : String), filesUnder source.fs rootDir = [] →
      loadDirectory parseOk base source rootDir = (base, none)) ∧
    (∀ (parseOk : String → Bool) (base : BaseTemplates) (source : TemplateSource),
      filesUnder source.fs LayoutsDir = [] → filesUnder source.fs ComponentsDir = [] →
      filesUnder source.fs PartialsDir = [] →
      loadSource parseOk base source = (base, none)) ∧
    (∀ (source : TemplateSource) (filename : String) (pre post : List TemplateSource),
      readFile source.fs filename = none →
      lastContent (pre ++ source :: post) filename = lastContent (pre ++ post) filename) := by
  refine ⟨?_, ?_, ?_⟩
  · intro parseOk base source rootDir h
    rw [loadDirectory, h]
    rfl
  · intro parseOk base source hL hC hP
    simp [loadSource, loadDirectory, hL, hC, hP, loadFiles]
  · intro source filename pre post h
    induction pre with
    | nil =>
      rcases h2 : lastContent post filename with _ | c
      · simp [lastContent, h2, h]
      · simp [lastContent, h2]
    | cons a rest ih =>
      have ih' : lastContent (rest.append (source :: post)) filename =
          lastContent (rest.append post) filename := ih
      simp only [List.cons_append, lastContent, ih']

/-- Witness for C7 at a source with no files at all. -/
theorem missingRoleTolerance_witness :
    loadSource parseAll emptyBaseTemplates srcEmpty = (emptyBaseTemplates, none) :=
  missingRoleTolerance.2.1 parseAll emptyBaseTemplates srcEmpty rfl rfl rfl

/-- Claim C10: the template helper mod ("num_mod") is total — it returns
0 when the divisor is 0 and the Go truncated remainder otherwise (the
value satisfying the truncated division identity and strictly smaller in
absolute value than the divisor), so no division by zero is executed. -/
theorem numModTotal (a b : Int) :
    (b = 0 → mod a b = 0) ∧
    (b ≠ 0 → mod a b = Int.tmod a b ∧ b * Int.tdiv a b + mod a b = a ∧
      (mod a b).natAbs < b.natAbs) := by
  constructor
  · intro hb; simp [mod, hb]
  · intro hb
    have hm : mod a b = Int.tmod a b := by simp [mod, hb]
    exact ⟨hm, by rw [hm]; exact Int.tdiv_add_tmod a b,
      by rw [hm]; exact natAbs_tmod_lt a b hb⟩

/-- Witness for C10 at dividend -7 and divisor 3. -/
theorem numModTotal_witness :
    mod (-7) 3 = Int.tmod (-7) 3 ∧ (3:Int) * Int.tdiv (-7) 3 + mod (-7) 3 = -7 ∧
      (mod (-7) 3).natAbs < ((3:Int)).natAbs :=
  (numModTotal (-7) 3).2 (by decide)

/-- Go strings.TrimPrefix removes a prefix that is present. -/
theorem trimPrefix_concat (pre s : String) : trimPrefix (pre ++ s) pre = s := by
  have hdata : (pre ++ s).toList = pre.toList ++ s.toList := by simp [String.toList]
  have hpre : strIsPrefixOf pre (pre ++ s) = true := by
    rw [strIsPrefixOf, hdata, List.isPrefixOf_iff_prefix]
    exact List.prefix_append _ _
  rw [trimPrefix, if_pos hpre, hdata, List.drop_left]
  rfl

/-- Stripping the root directory and the separating slash from a path
under that root leaves the relative remainder. -/
theorem templateName_strip (root rel : String) :
    trimPrefix (trimPrefix (root ++ "/" ++ rel) root) "/" = rel := by
  rw [String.append_assoc, trimPrefix_concat, trimPrefix_concat]

/-- Claim C8: canonical identifier construction.  For a file under one of
the three base role directories, templateName strips the role-root prefix
and the extension and prefixes the role tag; for any other root directory
(the documents root), it yields the bare relative path with the extension
stripped and no prefix. -/
theorem canonicalIdentifierConstruction :
    (∀ rel : String, templateName LayoutsDir (LayoutsDir ++ "/" ++ rel) =
      "layout:" ++ trimSuffix rel (pathExt rel)) ∧
    (∀ rel : String, templateName ComponentsDir (ComponentsDir ++ "/" ++ rel) =
      "component:" ++ trimSuffix rel (pathExt rel)) ∧
    (∀ rel : String, templateName PartialsDir (PartialsDir ++ "/" ++ rel) =
      "partial:" ++ trimSuffix rel (pathExt rel)) ∧
    (∀ root rel : String, root ≠ LayoutsDir → root ≠ ComponentsDir → root ≠ PartialsDir →
      templateName root (root ++ "/" ++ rel) = trimSuffix rel (pathExt rel)) := by
  refine ⟨?_, ?_, ?_, ?_⟩
  · intro rel
    simp only [templateName, templateName_strip]
    simp
  · intro rel
    simp only [templateName, templateName_strip]
    rw [if_neg (by decide)]
    simp
  · intro rel
    simp only [templateName, templateName_strip]
    rw [if_neg (by decide), if_neg (by decide)]
    simp
  · intro root rel h1 h2 h3
    simp only [templateName, templateName_strip]
    rw [if_neg h1, if_neg h2, if_neg h3]

/-- Witness for C8 at a document path: emails/welcome.txt names the plain
document "welcome". -/
theorem canonicalIdentifierConstruction_witness :
    templateName EmailsDir (EmailsDir ++ "/" ++ "welcome.txt") = "welcome" := by
  have h := canonicalIdentifierConstruction.2.2.2 EmailsDir "welcome.txt"
    (by decide) (by decide) (by decide)
  exact h.trans (by decide)

/-- The NewManager source loop only appends the given sources, in order,
and never touches the default layout. -/
theorem addSourceList_sources (parseOk : String → Bool) (srcs : List TemplateSource) :
    ∀ (m m' : Manager), addSourceList parseOk m srcs = .ok m' →
      m'.sources = m.sources ++ srcs ∧ m'.defaultLayout = m.defaultLayout := by
  induction srcs with
  | nil =>
    intro m m' h
    simp only [addSourceList] at h
    cases h
    simp
  | cons s rest ih =>
    intro m m' h
    rw [addSourceList] at h
    rcases h2 : AddSource parseOk m s with ⟨m2, e⟩
    rw [h2] at h
    cases e with
    | some e0 => simp at h
    | none =>
      simp only at h
      have hrec := ih m2 m' h
      have hsrc : m.sources ++ [s] = m2.sources := congrArg (fun p => p.1.sources) h2
      have hdl : m.defaultLayout = m2.defaultLayout := congrArg (fun p => p.1.defaultLayout) h2
      refine ⟨?_, hrec.2.trans hdl.symm⟩
      rw [hrec.1, ← hsrc, List.append_assoc]
      rfl

/-- Claim C9: every successfully constructed manager registers the
built-in source as its first (earliest, lowest-precedence) source before
every caller-supplied source, so the registry is never empty, and any
document file supplied by a configured source shadows the built-in copy
in resolution. -/
theorem builtinSourceFirst (parseOk : String → Bool) (builtinFS : GoFS)
    (cfgSources : List TemplateSource) (cfgDefaultLayout : String) (m : Manager)
    (h : NewManager parseOk builtinFS cfgSources cfgDefaultLayout = .ok m) :
    m.sources = { name := "built-in", fs := builtinFS } :: cfgSources ∧
    m.sources ≠ [] ∧
    (∀ filename : String, (lastContent cfgSources filename).isSome = true →
      lastContent m.sources filename = lastContent cfgSources filename) := by
  simp only [NewManager] at h
  rcases h2 : AddSource parseOk
      { defaultLayout := if cfgDefaultLayout = "" then "base" else cfgDefaultLayout,
        sources := [], baseTemplates := emptyBaseTemplates, emailCache := [] }
      { name := "built-in", fs := builtinFS } with ⟨m1, e⟩
  rw [h2] at h
  cases e with
  | some e0 => simp at h
  | none =>
    simp only at h
    have hsrc1 : ([] : List TemplateSource) ++ [{ name := "built-in", fs := builtinFS }] =
        m1.sources := congrArg (fun p => p.1.sources) h2
    have hall := addSourceList_sources parseOk cfgSources m1 m h
    have hm : m.sources = { name := "built-in", fs := builtinFS } :: cfgSources := by
      rw [hall.1, ← hsrc1]
      rfl
    refine ⟨hm, by rw [hm]; exact List.cons_ne_nil _ _, ?_⟩
    intro filename hsome
    rcases h4 : lastContent cfgSources filename with _ | c
    · rw [h4] at hsome; simp at hsome
    · rw [hm]
      simp [lastContent, h4]

/-- Witness for C9 at a concrete construction with no configured
sources. -/
theorem builtinSourceFirst_witness :
    mgrC9.sources = [{ name := "built-in", fs := ([] : GoFS) }] ∧ mgrC9.sources ≠ [] := by
  have h := builtinSourceFirst parseAll [] [] "" mgrC9 rfl
  exact ⟨h.1, h.2.1⟩

/-- Claim C2: document resolution order.  On a cache miss the resolver
either fails with the not-found error naming the document file when no
source contains it, or — taking the content as seen from the most
recently added source containing the file — parses exactly that content
into a clone of the current base set for the format under the bare
document name, caches and returns it; and the most-recent-match search
ignores every source older than the last source containing the file. -/
theorem documentResolutionOrder (parseOk : String → Bool) (m : Manager) (name layout : String)
    (fmt : TemplateFormat)
    (hmiss : assocFind m.emailCache (cacheKey fmt name layout) = none) :
    (lastContent m.sources (emailFilename name fmt) = none →
      getEmailTemplate parseOk m name layout fmt =
        (m, .error ("template " ++ emailFilename name fmt ++ " not found"))) ∧
    (∀ content, lastContent m.sources (emailFilename name fmt) = some content →
      parseOk content = true →
      getEmailTemplate parseOk m name layout fmt =
        ({ m with emailCache :=
            (cacheKey fmt name layout, (name, content) :: m.baseTemplates.get fmt) ::
              m.emailCache },
          .ok ((name, content) :: m.baseTemplates.get fmt))) ∧
    (∀ (pre post : List TemplateSource) (s : TemplateSource) (f content : String),
      readFile s.fs f = some content → (∀ t ∈ post, readFile t.fs f = none) →
      lastContent (pre ++ s :: post) f = some content) := by
  refine ⟨?_, ?_, ?_⟩
  · intro hnone
    simp [getEmailTemplate, hmiss, findFirstContent_reverse, hnone]
  · intro content hsome hp
    simp [getEmailTemplate, hmiss, findFirstContent_reverse, hsome, hp]
  · intro pre post s f content hs hpost
    induction pre with
    | nil =>
      have hnone := lastContent_none post f hpost
      simp [lastContent, hnone, hs]
    | cons a rest ih =>
      have ih' : lastContent (rest.append (s :: post)) f = some content := ih
      simp [lastContent, ih, ih']

/-- Witness for C2: of two sources providing emails/welcome.html, the
later one's content is parsed into the returned template and cached. -/
theorem documentResolutionOrder_witness :
    getEmailTemplate parseAll mgrDocs "welcome" "base" .html =
      ({ mgrDocs with emailCache :=
          (cacheKey .html "welcome" "base",
            ("welcome", "HI_OVERRIDE") :: mgrDocs.baseTemplates.get .html) ::
            mgrDocs.emailCache },
        .ok (("welcome", "HI_OVERRIDE") :: mgrDocs.baseTemplates.get .html)) :=
  (documentResolutionOrder parseAll mgrDocs "welcome" "base" .html rfl).2.1 "HI_OVERRIDE" rfl rfl

/-- Claim C5, amended: if both formats fail to resolve, the render fails
with the single no-templates-found error naming the document; if exactly
one format resolves and its execution (plus, for HTML, post-processing)
yields a non-empty body, the render succeeds with that body and the other
body empty.  (The code distinguishes the cases by emptiness of the
rendered bodies, so a sole resolving format that renders to "" is also
reported as not found — see the counterexample.) -/
theorem renderFormatAvailability :
    (∀ {D : Type} (parseOk : String → Bool)
        (exec : TemplateSet → String → D → Except String String)
        (proc : String → Except String String) (m : Manager) (name : String) (data : D)
        (layout : String) (m1 m2 : Manager) (e1 e2 : String),
      getEmailTemplate parseOk m name (if layout = "" then m.defaultLayout else layout) .text =
        (m1, .error e1) →
      getEmailTemplate parseOk m1 name (if layout = "" then m.defaultLayout else layout) .html =
        (m2, .error e2) →
      RenderEmail parseOk exec proc m name data layout =
        (m2, .error ("no templates found for email \"" ++ name ++ "\""))) ∧
    (∀ {D : Type} (parseOk : String → Bool)
        (exec : TemplateSet → String → D → Except String String)
        (proc : String → Except String String) (m : Manager) (name : String) (data : D)
        (layout : String) (t : TemplateSet) (s : String) (m1 m2 : Manager) (e2 : String),
      getEmailTemplate parseOk m name (if layout = "" then m.defaultLayout else layout) .text =
        (m1, .ok t) →
      exec t "layout" data = .ok s → s ≠ "" →
      getEmailTemplate parseOk m1 name (if layout = "" then m.defaultLayout else layout) .html =
        (m2, .error e2) →
      RenderEmail parseOk exec proc m name data layout =
        (m2, .ok { Subject := "", Text := s, HTML := "" })) ∧
    (∀ {D : Type} (parseOk : String → Bool)
        (exec : TemplateSet → String → D → Except String String)
        (proc : String → Except String String) (m : Manager) (name : String) (data : D)
        (layout : String) (t : TemplateSet) (hs h2 : String) (m1 m2 : Manager) (e1 : String),
      getEmailTemplate parseOk m name (if layout = "" then m.defaultLayout else layout) .text =
        (m1, .error e1) →
      getEmailTemplate parseOk m1 name (if layout = "" then m.defaultLayout else layout) .html =
        (m2, .ok t) →
      exec t "layout" data = .ok hs → proc hs = .ok h2 → h2 ≠ "" →
      RenderEmail parseOk exec proc m name data layout =
        (m2, .ok { Subject := "", Text := "", HTML := h2 })) := by
  refine ⟨?_, ?_, ?_⟩
  · intro D parseOk exec proc m name data layout m1 m2 e1 e2 ht hh
    simp [RenderEmail, ht, renderHtmlPart, hh, finishRender]
  · intro D parseOk exec proc m name data layout t s m1 m2 e2 ht hex hs hh
    simp [RenderEmail, ht, hex, renderHtmlPart, hh, finishRender, hs]
  · intro D parseOk exec proc m name data layout t hs h2 m1 m2 e1 ht hh hex hproc hne
    simp [RenderEmail, ht, renderHtmlPart, hh, hex, hproc, finishRender, hne]

/-- Witness for C5 (amended form): a text-only document whose execution
output is non-empty renders successfully with an empty HTML body. -/
theorem renderFormatAvailability_witness :
    (RenderEmail parseAll execConst procId mgrTextOnly "only" () "").2 =
      .ok { Subject := "", Text := "TEXT_BODY", HTML := "" } := by
  have h := renderFormatAvailability.2.1 parseAll execConst procId mgrTextOnly "only" () ""
    [("only", "ONLY_TPL")] "TEXT_BODY"
    (getEmailTemplate parseAll mgrTextOnly "only" "base" .text).1
    (getEmailTemplate parseAll (getEmailTemplate parseAll mgrTextOnly "only" "base" .text).1
      "only" "base" .html).1
    "template emails/only.html not found" rfl rfl (by decide) rfl
  exact congrArg Prod.snd h

/-- Counterexample to C5 as frozen: the document exists only in the text
format (text resolution succeeds, HTML resolution fails with not-found),
yet when the text template's execution output is empty the render fails
with the no-templates-found error instead of succeeding. -/
theorem renderEmptyOutput_cex :
    (getEmailTemplate parseAll mgrTextOnly "only" "base" .text).2 =
      .ok [("only", "ONLY_TPL")] ∧
    (getEmailTemplate parseAll
        (getEmailTemplate parseAll mgrTextOnly "only" "base" .text).1 "only" "base" .html).2 =
      .error "template emails/only.html not found" ∧
    (RenderEmail parseAll execEmpty procId mgrTextOnly "only" () "").2 =
      .error "no templates found for email \"only\"" :=
  ⟨rfl, rfl, rfl⟩

end Mailpen
